import Mathlib

/-!
Shallow embedding of the LDOS tiered memory manager core
(src/tiered_memory.h, src/tiered_memory.c, src/uffd_handler.c,
src/policy_thread.c, src/unnamed/part_001 = pebs.c,
src/unnamed/part_002 = page_stats.c).

Modelling conventions:
* C `uint64_t` / `size_t` values are `Nat`; arithmetic that can overflow in a
  way any claim engages (the tier `used` counters, the capacity comparison,
  and the PEBS estimate multiplication) is made explicit with `% 2^64`
  (`wadd`, `wsub`, `wmul`).  Monotone fetch-add event counters are plain `Nat`
  increments (a 64-bit one-step counter cannot wrap in any feasible run).
* C `double` fields (`heat_score`, `access_rate`, `confidence` and the policy
  thresholds) are modelled as exact rationals `ℚ`; the claims under study only
  compare and subtract them.
* Pointers/addresses are `Nat`.  The page-stats hash table is modelled as the
  list of its records in traversal order (bucket by bucket, chain by chain);
  keys are unique because insertion is guarded by a lookup
  (`get_or_create_page_stats` double-checks before inserting).
* The kernel side of `userfaultfd` is modelled by a `mapped` set of pages:
  `UFFDIO_COPY` succeeds iff the target page is not yet mapped, and fails with
  `EEXIST` iff it is; other transient copy failures and `UFFDIO_REGISTER`
  failures are oracle booleans passed in by the caller.
* `calloc` failure paths (`get_or_create_page_stats` returning NULL) are not
  modelled: allocation is assumed to succeed.
-/

namespace LDOS

/-- `PAGE_SIZE` from tiered_memory.h. -/
def PAGE_SIZE : Nat := 4096

/-- `MAX_MANAGED_REGIONS` from tiered_memory.h. -/
def MAX_MANAGED_REGIONS : Nat := 64

/-- `PEBS_SAMPLE_PERIOD` from pebs.h. -/
def PEBS_SAMPLE_PERIOD : Nat := 100007

/-- One past the largest `uint64_t` value. -/
def U64 : Nat := 2 ^ 64

/-- 64-bit wrapping addition (C unsigned `+`). -/
def wadd (a b : Nat) : Nat := (a + b) % U64

/-- 64-bit wrapping subtraction (C unsigned `-`). -/
def wsub (a b : Nat) : Nat := (a + (U64 - b % U64)) % U64

/-- 64-bit wrapping multiplication (C unsigned `*`). -/
def wmul (a b : Nat) : Nat := (a * b) % U64

/-- `page_align` from page_stats.c: `addr & ~(PAGE_SIZE-1)`,
i.e. clear the low 12 bits. -/
def page_align (addr : Nat) : Nat := addr / PAGE_SIZE * PAGE_SIZE

/-- `memory_tier_t` from tiered_memory.h. -/
inductive memory_tier : Type
  | TIER_UNKNOWN
  | TIER_DRAM
  | TIER_NVM
  deriving DecidableEq, Repr

export memory_tier (TIER_UNKNOWN TIER_DRAM TIER_NVM)

/-- `tier_config_t` from tiered_memory.h (the `name`, latency hints and the
always-NULL `backing_memory` pointer are informational and omitted). -/
structure tier_config : Type where
  capacity : Nat
  used : Nat
  deriving DecidableEq, Repr

/-- `page_stats_t` from tiered_memory.h (the hash-chain `next` pointer is the
list structure of the table model). -/
structure page_stats : Type where
  page_addr : Nat
  access_count : Nat
  read_count : Nat
  write_count : Nat
  first_access_ns : Nat
  last_access_ns : Nat
  allocation_ns : Nat
  heat_score : ℚ
  access_rate : ℚ
  current_tier : memory_tier
  last_migration_ns : Nat
  migration_count : Nat
  deriving DecidableEq, Repr

/-- `managed_region_t` from tiered_memory.h (the per-region `uffd` descriptor
copy is omitted). -/
structure managed_region : Type where
  base_addr : Nat
  length : Nat
  active : Bool
  total_faults : Nat
  pages_in_dram : Nat
  pages_in_nvm : Nat
  deriving DecidableEq, Repr

/-- `migration_decision_t` from tiered_memory.h. -/
structure migration_decision : Type where
  page_addr : Nat
  from_tier : memory_tier
  to_tier : memory_tier
  confidence : ℚ
  reason : String
  deriving DecidableEq, Repr

/-- `pebs_page_record_t` from pebs.h (hash-chain pointer omitted). -/
structure pebs_page_record : Type where
  vaddr : Nat
  read_samples : Nat
  write_samples : Nat
  total_latency : Nat
  last_sample_ns : Nat
  deriving DecidableEq, Repr

/-- The mutable state of `tiered_manager_t` relevant to the dataplane:
regions array, page-stats table, tier configurations, global counters.
`mapped` models which pages the kernel has already resolved via
`UFFDIO_COPY` (the userfaultfd side effect of `resolve_page_fault`). -/
structure tiered_manager : Type where
  regions : List managed_region
  region_count : Nat
  records : List page_stats
  total_pages_tracked : Nat
  tierUnknown : tier_config
  tierDram : tier_config
  tierNvm : tier_config
  total_faults : Nat
  total_migrations : Nat
  policy_cycles : Nat
  mapped : List Nat
  deriving DecidableEq, Repr

/-- `g_manager.tiers[t]`. -/
def getTier (s : tiered_manager) : memory_tier → tier_config
  | TIER_UNKNOWN => s.tierUnknown
  | TIER_DRAM => s.tierDram
  | TIER_NVM => s.tierNvm

/-- Write `g_manager.tiers[t].used = v`. -/
def setTierUsed (s : tiered_manager) (t : memory_tier) (v : Nat) : tiered_manager :=
  match t with
  | TIER_UNKNOWN => { s with tierUnknown := { s.tierUnknown with used := v } }
  | TIER_DRAM => { s with tierDram := { s.tierDram with used := v } }
  | TIER_NVM => { s with tierNvm := { s.tierNvm with used := v } }

/-- Chain traversal of the stats table: the body of `get_page_stats`
(page_stats.c) after the address has been aligned. -/
def lookupRec (l : List page_stats) (a : Nat) : Option page_stats :=
  l.find? (fun r => r.page_addr == a)

/-- Mutation through the pointer returned by a lookup: rewrite the (unique)
record whose key is `a`. -/
def updateRec (l : List page_stats) (a : Nat) (f : page_stats → page_stats) :
    List page_stats :=
  l.map (fun r => if r.page_addr = a then f r else r)

/-- `get_page_stats` from page_stats.c: align, then chain lookup. -/
def get_page_stats (s : tiered_manager) (page_addr : Nat) : Option page_stats :=
  lookupRec s.records (page_align page_addr)

/-- A freshly `calloc`ed record as initialised by `get_or_create_page_stats`:
zero counters, both timestamps and `allocation_ns` set to now,
`current_tier = TIER_UNKNOWN`. -/
def freshStats (aligned now : Nat) : page_stats :=
  { page_addr := aligned
    access_count := 0
    read_count := 0
    write_count := 0
    first_access_ns := now
    last_access_ns := now
    allocation_ns := now
    heat_score := 0
    access_rate := 0
    current_tier := TIER_UNKNOWN
    last_migration_ns := 0
    migration_count := 0 }

/-- `get_or_create_page_stats` from page_stats.c: lookup, and on miss insert a
fresh record and bump `total_pages_tracked`. -/
def get_or_create_page_stats (s : tiered_manager) (page_addr now : Nat) :
    tiered_manager :=
  match lookupRec s.records (page_align page_addr) with
  | some _ => s
  | none =>
      { s with
        records := s.records ++ [freshStats (page_align page_addr) now]
        total_pages_tracked := s.total_pages_tracked + 1 }

/-- `record_page_access` from page_stats.c: get-or-create, then bump
`access_count` and the read or write counter, and store now into
`last_access_ns`. -/
def record_page_access (s : tiered_manager) (page_addr : Nat) (is_write : Bool)
    (now : Nat) : tiered_manager :=
  { get_or_create_page_stats s page_addr now with
    records := updateRec (get_or_create_page_stats s page_addr now).records
      (page_align page_addr) (fun r =>
      { r with
        access_count := r.access_count + 1
        read_count := if is_write then r.read_count else r.read_count + 1
        write_count := if is_write then r.write_count + 1 else r.write_count
        last_access_ns := now }) }

/-- `decide_initial_placement` from uffd_handler.c: DRAM if it has a page of
free capacity, else NVM if it does, else DRAM anyway. -/
def decide_initial_placement (s : tiered_manager) : memory_tier :=
  if wadd s.tierDram.used PAGE_SIZE ≤ s.tierDram.capacity then TIER_DRAM
  else if wadd s.tierNvm.used PAGE_SIZE ≤ s.tierNvm.capacity then TIER_NVM
  else TIER_DRAM

/-- The region-counter loop inside `resolve_page_fault` (uffd_handler.c):
find the first active region containing the page and bump its
`total_faults` and `pages_in_dram`/`pages_in_nvm`; then break. -/
def bump_region : List managed_region → Nat → memory_tier → List managed_region
  | [], _, _ => []
  | r :: rest, a, tier =>
      if r.active ∧ r.base_addr ≤ a ∧ a < r.base_addr + r.length then
        { r with
          total_faults := r.total_faults + 1
          pages_in_dram := if tier = TIER_DRAM then r.pages_in_dram + 1 else r.pages_in_dram
          pages_in_nvm := if tier = TIER_DRAM then r.pages_in_nvm else r.pages_in_nvm + 1 }
          :: rest
      else r :: bump_region rest a tier

/-- `resolve_page_fault` from uffd_handler.c.  The `UFFDIO_COPY` ioctl is
modelled through `s.mapped`: if the page is already mapped the ioctl fails
with `EEXIST` and the function returns 0 immediately; `copy_fails` is an
oracle for any other (transient) copy failure, which returns -1 immediately.
On a successful copy: mark mapped, bump the chosen tier usage, create/update
the page record (tier, then an initial read access), bump the owning region's
counters and the global fault counter. -/
def resolve_page_fault (s : tiered_manager) (fault_addr : Nat)
    (tier : memory_tier) (now : Nat) (copy_fails : Bool) :
    tiered_manager × Int :=
  let page_addr := page_align fault_addr
  if page_addr ∈ s.mapped then (s, 0)
  else if copy_fails then (s, -1)
  else
    let s1 := { s with mapped := page_addr :: s.mapped }
    let s2 := setTierUsed s1 tier (wadd (getTier s1 tier).used PAGE_SIZE)
    let s3 := get_or_create_page_stats s2 page_addr now
    let s4 := { s3 with
      records := updateRec s3.records page_addr (fun r => { r with current_tier := tier }) }
    let s5 := record_page_access s4 page_addr false now
    let s6 := { s5 with regions := bump_region s5.regions page_addr tier }
    ({ s6 with total_faults := s6.total_faults + 1 }, 0)

/-- `g_policy_config.hot_threshold = 0.7` (stored in normalised form so that
rational comparisons evaluate by kernel reduction). -/
def hot_threshold : ℚ := ⟨7, 10, by decide, by decide⟩

/-- `g_policy_config.cold_threshold = 0.3`. -/
def cold_threshold : ℚ := ⟨3, 10, by decide, by decide⟩

/-- `g_policy_config.confidence_min = 0.5`. -/
def confidence_min : ℚ := ⟨1, 2, by decide, by decide⟩

/-- `g_policy_config.min_residence_ns` (100 ms). -/
def min_residence_ns : Nat := 100000000

/-- `g_policy_config.max_migrations_per_cycle`. -/
def max_migrations_per_cycle : Nat := 10

/-- `default_heuristic_policy` from policy_thread.c.  The C out-parameter
plus `bool` return is an `Option`.  `now - last_migration_ns` is the 64-bit
wrapping difference the C computes. -/
def default_heuristic_policy (stats : page_stats) (now : Nat) :
    Option migration_decision :=
  if stats.last_migration_ns > 0 ∧
      wsub now stats.last_migration_ns < min_residence_ns then
    none
  else if stats.current_tier = TIER_NVM ∧ stats.heat_score > hot_threshold then
    some
      { page_addr := stats.page_addr
        from_tier := stats.current_tier
        to_tier := TIER_DRAM
        confidence := stats.heat_score
        reason := "Hot page promotion" }
  else if stats.current_tier = TIER_DRAM ∧ stats.heat_score < cold_threshold then
    some
      { page_addr := stats.page_addr
        from_tier := stats.current_tier
        to_tier := TIER_NVM
        confidence := 1 - stats.heat_score
        reason := "Cold page demotion" }
  else none

/-- `execute_migration` from policy_thread.c: look up the record (by aligned
address, via `get_page_stats`), fail if absent, fail if the destination tier
is full, otherwise move one page of usage from source to destination tier and
update the record's placement fields and the global migration counter. -/
def execute_migration (s : tiered_manager) (d : migration_decision)
    (now : Nat) : tiered_manager × Int :=
  match get_page_stats s d.page_addr with
  | none => (s, -1)
  | some _ =>
      if wadd (getTier s d.to_tier).used PAGE_SIZE > (getTier s d.to_tier).capacity then
        (s, -1)
      else
        let s1 := setTierUsed s d.from_tier (wsub (getTier s d.from_tier).used PAGE_SIZE)
        let s2 := setTierUsed s1 d.to_tier (wadd (getTier s1 d.to_tier).used PAGE_SIZE)
        let s3 := { s2 with
          records := updateRec s2.records (page_align d.page_addr) (fun r =>
            { r with
              current_tier := d.to_tier
              last_migration_ns := now
              migration_count := r.migration_count + 1 })
          total_migrations := s2.total_migrations + 1 }
        (s3, 0)

/-- The migration-scan loop of `policy_thread_loop` (policy_thread.c).
`keys` is the traversal order of the table (bucket by bucket, chain by
chain); `m` counts migrations this cycle.  Before each entry the loop guard
`migrations_this_cycle < max_migrations_per_cycle` is checked; for each entry
the active policy is consulted and, if it returns a decision with
`confidence >= confidence_min`, the migration is executed (and counted only
when it returns 0).  The policy function argument models
`predict_migration`'s dispatch through `g_migration_policy`. -/
def policy_scan_go (pol : page_stats → Option migration_decision) (now : Nat) :
    List Nat → tiered_manager → Nat → tiered_manager × Nat
  | [], s, m => (s, m)
  | a :: rest, s, m =>
      if m < max_migrations_per_cycle then
        match lookupRec s.records a with
        | none => policy_scan_go pol now rest s m
        | some rec =>
            match pol rec with
            | none => policy_scan_go pol now rest s m
            | some d =>
                if d.confidence ≥ confidence_min then
                  let sr := execute_migration s d now
                  policy_scan_go pol now rest sr.1 (if sr.2 = 0 then m + 1 else m)
                else policy_scan_go pol now rest s m
      else (s, m)

/-- One policy cycle's migration scan over the whole table, returning the new
state and `migrations_this_cycle`.  (The feature update that precedes the
scan in `policy_thread_loop` only rewrites the derived `heat_score` and
`access_rate` fields; the scan is modelled on the table it is handed.) -/
def policy_cycle_scan (s : tiered_manager)
    (pol : page_stats → Option migration_decision) (now : Nat) :
    tiered_manager × Nat :=
  policy_scan_go pol now (s.records.map (fun r => r.page_addr)) s 0

/-- An inactive, zeroed region slot (`g_manager = {0}`). -/
def emptyRegion : managed_region :=
  { base_addr := 0, length := 0, active := false
    total_faults := 0, pages_in_dram := 0, pages_in_nvm := 0 }

/-- `register_managed_region` from uffd_handler.c: find the first inactive
slot (error if none), arm userfaultfd for the range (`ioctl_ok` is the
oracle for the `UFFDIO_REGISTER` ioctl; error if it fails), then activate the
slot with the supplied base/length and zeroed counters. -/
def register_managed_region (s : tiered_manager) (addr length : Nat)
    (ioctl_ok : Bool) : tiered_manager × Int :=
  match s.regions.findIdx? (fun r => !r.active) with
  | none => (s, -1)
  | some slot =>
      if ioctl_ok then
        ({ s with
          regions := s.regions.set slot
            { base_addr := addr, length := length, active := true
              total_faults := 0, pages_in_dram := 0, pages_in_nvm := 0 }
          region_count := s.region_count + 1 }, 0)
      else (s, -1)

/-- The per-record body of `pebs_merge_with_page_stats` (pebs.c): estimate
true access counts from the sample counts, keep the larger of estimate and
current counter, recompute `access_count` as the (64-bit) sum, and advance
`last_access_ns` if the sampler saw more recent activity. -/
def pebs_merge_record (rec : pebs_page_record) (stats : page_stats) :
    page_stats :=
  let current_reads := stats.read_count
  let current_writes := stats.write_count
  let estimated_reads := wmul rec.read_samples PEBS_SAMPLE_PERIOD
  let estimated_writes := wmul rec.write_samples PEBS_SAMPLE_PERIOD
  let stats1 :=
    if estimated_reads > current_reads then
      { stats with read_count := estimated_reads } else stats
  let stats2 :=
    if estimated_writes > current_writes then
      { stats1 with write_count := estimated_writes } else stats1
  let stats3 := { stats2 with access_count := wadd stats2.read_count stats2.write_count }
  if rec.last_sample_ns > stats3.last_access_ns then
    { stats3 with last_access_ns := rec.last_sample_ns }
  else stats3

/-- `pebs_merge_with_page_stats` (pebs.c): for each sampled record, get or
create the corresponding page-stats entry and merge into it. -/
def pebs_merge_with_page_stats (s : tiered_manager)
    (pebsRecs : List pebs_page_record) (now : Nat) : tiered_manager :=
  pebsRecs.foldl
    (fun s rec =>
      let s1 := get_or_create_page_stats s rec.vaddr now
      { s1 with
        records := updateRec s1.records (page_align rec.vaddr) (pebs_merge_record rec) })
    s

/-- A freshly initialised manager (`tiered_manager_init` + `init_memory_tiers`
in tiered_memory.c): 64 zeroed region slots, empty stats table, DRAM 4 GiB,
NVM 16 GiB, both empty; `tiers[TIER_UNKNOWN]` stays zeroed; zero counters;
no page yet resolved. -/
def initManager : tiered_manager :=
  { regions := List.replicate MAX_MANAGED_REGIONS emptyRegion
    region_count := 0
    records := []
    total_pages_tracked := 0
    tierUnknown := { capacity := 0, used := 0 }
    tierDram := { capacity := 4 * 1024 * 1024 * 1024, used := 0 }
    tierNvm := { capacity := 16 * 1024 * 1024 * 1024, used := 0 }
    total_faults := 0
    total_migrations := 0
    policy_cycles := 0
    mapped := [] }

/-- The two dataplane operations a running manager performs on the shared
state: a fault resolution (the handler thread picks the tier with
`decide_initial_placement` and calls `resolve_page_fault`) and a migration
(the policy thread calls `execute_migration` on a policy decision). -/
inductive ManagerOp : Type
  | fault (fault_addr now : Nat) (copy_fails : Bool)
  | migrate (d : migration_decision) (now : Nat)

/-- Apply one dataplane operation. -/
def applyOp (s : tiered_manager) : ManagerOp → tiered_manager
  | .fault a now cf => (resolve_page_fault s a (decide_initial_placement s) now cf).1
  | .migrate d now => (execute_migration s d now).1

/-- Apply a sequence of dataplane operations. -/
def runOps : tiered_manager → List ManagerOp → tiered_manager
  | s, [] => s
  | s, op :: rest => runOps (applyOp s op) rest

/-- A migration decision is well-formed for the current state when its
`from_tier` is the tier the record actually sits on (what the default
heuristic always produces).  Fault resolutions are always well-formed. -/
def validOp (s : tiered_manager) : ManagerOp → Prop
  | .fault _ _ _ => True
  | .migrate d _ =>
      ∀ r, get_page_stats s d.page_addr = some r → d.from_tier = r.current_tier

/-- Every operation of the sequence is well-formed in the state it runs in. -/
def goodOps : tiered_manager → List ManagerOp → Prop
  | _, [] => True
  | s, op :: rest => validOp s op ∧ goodOps (applyOp s op) rest

/-- Number of records currently placed on tier `t`. -/
def tierCount (t : memory_tier) (l : List page_stats) : Nat :=
  l.countP (fun r => r.current_tier = t)

/-- Number of records whose tier is known (not `TIER_UNKNOWN`). -/
def knownCount (l : List page_stats) : Nat :=
  l.countP (fun r => ¬ r.current_tier = TIER_UNKNOWN)

/-- The keys of the stats table are pairwise distinct (maintained by the
double-checked insert of `get_or_create_page_stats`). -/
def keysNodup (l : List page_stats) : Prop :=
  (l.map (fun r => r.page_addr)).Nodup

/-- The accounting invariant maintained by the dataplane: each tier's `used`
is `PAGE_SIZE` times the number of records placed on it, table keys are
unique, and every tracked page has been mapped. -/
def ManagerInv (s : tiered_manager) : Prop :=
  s.tierDram.used = PAGE_SIZE * tierCount TIER_DRAM s.records ∧
  s.tierNvm.used = PAGE_SIZE * tierCount TIER_NVM s.records ∧
  keysNodup s.records ∧
  ∀ k ∈ s.records.map (fun r => r.page_addr), k ∈ s.mapped

/-! Concrete states used to instantiate the theorems below. -/

/-- The rational 9/10, in normalised form. -/
def q_9_10 : ℚ := ⟨9, 10, by decide, by decide⟩

/-- The rational 3/20 (= 0.15), in normalised form. -/
def q_3_20 : ℚ := ⟨3, 20, by decide, by decide⟩

/-- The rational 2, in normalised form. -/
def q_2 : ℚ := ⟨2, 1, by decide, by decide⟩

/-- A tracked page on the slow tier that is hot (heat 0.9), never migrated. -/
def hotNvmStats (i : Nat) : page_stats :=
  { page_addr := i * PAGE_SIZE
    access_count := 100
    read_count := 100
    write_count := 0
    first_access_ns := 0
    last_access_ns := 90
    allocation_ns := 0
    heat_score := q_9_10
    access_rate := 2000
    current_tier := TIER_NVM
    last_migration_ns := 0
    migration_count := 0 }

/-- A manager tracking 50 hot NVM pages (the rate-limit scenario of the
spec's test 5). -/
def fiftyHotState : tiered_manager :=
  { initManager with
    records := (List.range 50).map hotNvmStats
    total_pages_tracked := 50
    tierNvm := { capacity := 16 * 1024 * 1024 * 1024, used := 50 * PAGE_SIZE }
    mapped := (List.range 50).map (fun i => i * PAGE_SIZE) }

/-- A manager tracking one hot NVM page. -/
def oneNvmState : tiered_manager :=
  { initManager with
    records := [hotNvmStats 0]
    total_pages_tracked := 1
    tierNvm := { capacity := 16 * 1024 * 1024 * 1024, used := PAGE_SIZE }
    mapped := [0] }

/-- A policy that returns a decision whose `from_tier` (DRAM) mismatches the
record's tier and whose confidence 2 lies outside [0,1] — expressible by any
custom `migration_policy_fn`. -/
def mismatchedPolicy (stats : page_stats) : Option migration_decision :=
  some
    { page_addr := stats.page_addr
      from_tier := TIER_DRAM
      to_tier := TIER_DRAM
      confidence := q_2
      reason := "invalid" }

/-- A manager tracking one NVM page while the NVM `used` counter is 0 (a
state a custom policy can reach by migrating with a mismatched `from_tier`). -/
def oneNvmZeroUsedState : tiered_manager :=
  { initManager with
    records := [hotNvmStats 0]
    total_pages_tracked := 1
    mapped := [0] }

/-- A manager whose DRAM tier is exactly full (one page of capacity, used). -/
def dramFullState : tiered_manager :=
  { initManager with
    records := [hotNvmStats 0]
    tierDram := { capacity := PAGE_SIZE, used := PAGE_SIZE }
    tierNvm := { capacity := 16 * 1024 * 1024 * 1024, used := PAGE_SIZE }
    mapped := [0] }

/-- A promotion decision for page 0 with full confidence. -/
def promoteDecision : migration_decision :=
  { page_addr := 0
    from_tier := TIER_NVM
    to_tier := TIER_DRAM
    confidence := 1
    reason := "promote" }

/-- The manager state after resolving one fault at address 0 (lands in DRAM). -/
def oneFaultState : tiered_manager :=
  (resolve_page_fault initManager 0 TIER_DRAM 100 false).1

/-- A cold DRAM page (heat 0.15), never migrated. -/
def coldDramStats : page_stats :=
  { page_addr := PAGE_SIZE
    access_count := 3
    read_count := 2
    write_count := 1
    first_access_ns := 0
    last_access_ns := 10
    allocation_ns := 0
    heat_score := q_3_20
    access_rate := 0
    current_tier := TIER_DRAM
    last_migration_ns := 0
    migration_count := 0 }

/-- A manager all of whose 64 region slots are occupied. -/
def allActiveState : tiered_manager :=
  { initManager with
    regions := List.replicate MAX_MANAGED_REGIONS
      { base_addr := 0, length := 4096, active := true
        total_faults := 0, pages_in_dram := 0, pages_in_nvm := 0 }
    region_count := MAX_MANAGED_REGIONS }

/-- A concrete PEBS record: 3 read samples, 2 write samples. -/
def samplePebsRecord : pebs_page_record :=
  { vaddr := 0, read_samples := 3, write_samples := 2
    total_latency := 1000, last_sample_ns := 777 }

/-- A fault followed by a migration whose `from_tier` (NVM) mismatches the
record's actual tier (DRAM): the kind of decision a custom policy can emit,
since the loop never validates `from_tier`. -/
def c1BadOps : List ManagerOp :=
  [ManagerOp.fault 0 100 false,
   ManagerOp.migrate
     { page_addr := 0, from_tier := TIER_NVM, to_tier := TIER_DRAM
       confidence := 1, reason := "mismatched" } 200]

/-- A fault followed by a well-formed demotion of the same page. -/
def c1GoodOps : List ManagerOp :=
  [ManagerOp.fault 0 100 false,
   ManagerOp.migrate
     { page_addr := 0, from_tier := TIER_DRAM, to_tier := TIER_NVM
       confidence := 1, reason := "demote" } 200]

/-! ### Arithmetic helper lemmas for the 64-bit wrapping operations -/

theorem U64_pos : 0 < U64 := by decide

theorem wadd_of_lt {a b : Nat} (h : a + b < U64) : wadd a b = a + b :=
  Nat.mod_eq_of_lt h

theorem wsub_of_le {a b : Nat} (hba : b ≤ a) (ha : a < U64) :
    wsub a b = a - b := by
  have hb : b < U64 := lt_of_le_of_lt hba ha
  unfold wsub
  rw [Nat.mod_eq_of_lt hb]
  have h1 : a + (U64 - b) = (a - b) + U64 := by omega
  rw [h1, Nat.add_mod_right, Nat.mod_eq_of_lt (by omega)]

theorem wsub_of_lt {a b : Nat} (hab : a < b) (hb : b < U64) :
    wsub a b = a + U64 - b := by
  unfold wsub
  rw [Nat.mod_eq_of_lt hb, Nat.mod_eq_of_lt (by omega)]
  omega

theorem wmul_of_lt {a b : Nat} (h : a * b < U64) : wmul a b = a * b :=
  Nat.mod_eq_of_lt h

/-! ### Tier accessor lemmas -/

theorem getTier_setTierUsed_same (s : tiered_manager) (t : memory_tier) (v : Nat) :
    getTier (setTierUsed s t v) t = { getTier s t with used := v } := by
  cases t <;> rfl

theorem getTier_setTierUsed_other (s : tiered_manager) {t u : memory_tier} (v : Nat)
    (h : u ≠ t) : getTier (setTierUsed s t v) u = getTier s u := by
  cases t <;> cases u <;> first | rfl | exact absurd rfl h

theorem setTierUsed_records (s : tiered_manager) (t : memory_tier) (v : Nat) :
    (setTierUsed s t v).records = s.records := by
  cases t <;> rfl

theorem setTierUsed_mapped (s : tiered_manager) (t : memory_tier) (v : Nat) :
    (setTierUsed s t v).mapped = s.mapped := by
  cases t <;> rfl

theorem setTierUsed_total_migrations (s : tiered_manager) (t : memory_tier) (v : Nat) :
    (setTierUsed s t v).total_migrations = s.total_migrations := by
  cases t <;> rfl

/-! ### Stats-table lemmas -/

theorem lookupRec_eq_none_iff {l : List page_stats} {a : Nat} :
    lookupRec l a = none ↔ ∀ r ∈ l, r.page_addr ≠ a := by
  unfold lookupRec
  rw [List.find?_eq_none]
  constructor
  · intro h r hr
    have := h r hr
    simpa using this
  · intro h r hr
    simpa using h r hr

theorem lookupRec_mem {l : List page_stats} {a : Nat} {r : page_stats}
    (h : lookupRec l a = some r) : r ∈ l ∧ r.page_addr = a := by
  refine ⟨List.mem_of_find?_eq_some h, ?_⟩
  have := List.find?_some h
  simpa using this

theorem updateRec_of_nomatch {l : List page_stats} {a : Nat}
    (f : page_stats → page_stats) (h : ∀ r ∈ l, r.page_addr ≠ a) :
    updateRec l a f = l := by
  unfold updateRec
  induction l with
  | nil => rfl
  | cons x xs ih =>
      simp only [List.map_cons]
      rw [if_neg (h x (List.mem_cons_self x xs)), ih (fun r hr => h r (List.mem_cons_of_mem x hr))]

theorem updateRec_length (l : List page_stats) (a : Nat) (f : page_stats → page_stats) :
    (updateRec l a f).length = l.length := by
  simp [updateRec]

theorem updateRec_keys (f : page_stats → page_stats)
    (hf : ∀ r, (f r).page_addr = r.page_addr) (l : List page_stats) (a : Nat) :
    (updateRec l a f).map (fun r => r.page_addr) = l.map (fun r => r.page_addr) := by
  unfold updateRec
  induction l with
  | nil => rfl
  | cons x xs ih =>
      simp only [List.map_cons]
      by_cases hx : x.page_addr = a
      · rw [if_pos hx, ih, hf]
      · rw [if_neg hx, ih]

theorem lookupRec_updateRec_self (f : page_stats → page_stats)
    (hf : ∀ r, (f r).page_addr = r.page_addr) (l : List page_stats) (a : Nat) :
    lookupRec (updateRec l a f) a = (lookupRec l a).map f := by
  unfold lookupRec updateRec
  induction l with
  | nil => rfl
  | cons x xs ih =>
      by_cases hx : x.page_addr = a
      · simp only [List.map_cons, if_pos hx, List.find?_cons]
        have h1 : ((f x).page_addr == a) = true := by
          rw [hf]; exact beq_iff_eq.mpr hx
        have h2 : (x.page_addr == a) = true := beq_iff_eq.mpr hx
        rw [h1, h2]
        rfl
      · simp only [List.map_cons, if_neg hx, List.find?_cons]
        have h2 : (x.page_addr == a) = false := beq_eq_false_iff_ne.mpr hx
        rw [h2, ih]

theorem lookupRec_updateRec_other (f : page_stats → page_stats)
    (hf : ∀ r, (f r).page_addr = r.page_addr) (l : List page_stats) {a b : Nat}
    (hab : b ≠ a) : lookupRec (updateRec l a f) b = lookupRec l b := by
  unfold lookupRec updateRec
  induction l with
  | nil => rfl
  | cons x xs ih =>
      by_cases hx : x.page_addr = a
      · simp only [List.map_cons, if_pos hx, List.find?_cons]
        have h1 : ((f x).page_addr == b) = false := by
          rw [hf, hx]; exact beq_eq_false_iff_ne.mpr (fun h => hab h.symm)
        have h2 : (x.page_addr == b) = false := by
          rw [hx]; exact beq_eq_false_iff_ne.mpr (fun h => hab h.symm)
        rw [h1, h2, ih]
      · simp only [List.map_cons, if_neg hx, List.find?_cons]
        cases h2 : (x.page_addr == b) with
        | true => rfl
        | false => rw [ih]

theorem lookupRec_append_fresh {l : List page_stats} {a : Nat}
    (h : lookupRec l a = none) (x : page_stats) (hx : x.page_addr = a) :
    lookupRec (l ++ [x]) a = some x := by
  unfold lookupRec at h ⊢
  rw [List.find?_append, h]
  simp [hx]

/-- Counting after a pointer update: the update rewrites exactly the record
the lookup returned (keys are unique). -/
theorem countP_updateRec {l : List page_stats} {a : Nat} {r0 : page_stats}
    (q : page_stats → Bool) (f : page_stats → page_stats)
    (hnd : keysNodup l) (h : lookupRec l a = some r0) :
    (updateRec l a f).countP q + (if q r0 then 1 else 0)
      = l.countP q + (if q (f r0) then 1 else 0) := by
  induction l with
  | nil => simp [lookupRec] at h
  | cons x xs ih =>
      have hnd' : keysNodup xs := by
        unfold keysNodup at hnd ⊢
        simp only [List.map_cons, List.nodup_cons] at hnd
        exact hnd.2
      by_cases hx : x.page_addr = a
      · have hr0 : r0 = x := by
          unfold lookupRec at h
          rw [List.find?_cons, beq_iff_eq.mpr hx] at h
          exact (Option.some_inj.mp h).symm
        have hxs : ∀ r ∈ xs, r.page_addr ≠ a := by
          intro r hr
          unfold keysNodup at hnd
          simp only [List.map_cons, List.nodup_cons] at hnd
          intro hra
          exact hnd.1 (hx ▸ hra ▸ List.mem_map_of_mem (fun s => s.page_addr) hr)
        unfold updateRec
        simp only [List.map_cons, if_pos hx]
        have : List.map (fun r => if r.page_addr = a then f r else r) xs = xs := by
          have := updateRec_of_nomatch f hxs
          simpa [updateRec] using this
        rw [this, hr0]
        simp only [List.countP_cons]
        by_cases hq1 : q x <;> by_cases hq2 : q (f x) <;> simp [hq1, hq2]
      · have h' : lookupRec xs a = some r0 := by
          unfold lookupRec at h ⊢
          rw [List.find?_cons, beq_eq_false_iff_ne.mpr hx] at h
          exact h
        have := ih hnd' h'
        unfold updateRec at this ⊢
        simp only [List.map_cons, if_neg hx, List.countP_cons]
        omega

/-- A record found by lookup contributes to the count of its predicate class. -/
theorem countP_pos_of_lookup {l : List page_stats} {a : Nat} {r0 : page_stats}
    (q : page_stats → Bool) (h : lookupRec l a = some r0) (hq : q r0) :
    1 ≤ l.countP q := by
  have hm := (lookupRec_mem h).1
  have : 0 < l.countP q := List.countP_pos_iff.mpr ⟨r0, hm, hq⟩
  omega

theorem getTier_set_records_migrations (s : tiered_manager) (l : List page_stats)
    (n : Nat) (t : memory_tier) :
    getTier { s with records := l, total_migrations := n } t = getTier s t := by
  cases t <;> rfl

theorem page_align_idem (a : Nat) : page_align (page_align a) = page_align a := by
  unfold page_align
  rw [Nat.mul_div_cancel _ (by decide : 0 < PAGE_SIZE)]

theorem getTier_set_mapped (s : tiered_manager) (l : List Nat) (t : memory_tier) :
    getTier { s with mapped := l } t = getTier s t := by
  cases t <;> rfl

theorem getTier_set_records (s : tiered_manager) (l : List page_stats) (t : memory_tier) :
    getTier { s with records := l } t = getTier s t := by
  cases t <;> rfl

theorem getTier_set_regions (s : tiered_manager) (l : List managed_region) (t : memory_tier) :
    getTier { s with regions := l } t = getTier s t := by
  cases t <;> rfl

theorem getTier_set_faults (s : tiered_manager) (n : Nat) (t : memory_tier) :
    getTier { s with total_faults := n } t = getTier s t := by
  cases t <;> rfl

theorem getTier_get_or_create (s : tiered_manager) (a n : Nat) (t : memory_tier) :
    getTier (get_or_create_page_stats s a n) t = getTier s t := by
  unfold get_or_create_page_stats
  cases hl : lookupRec s.records (page_align a) with
  | none => cases t <;> rfl
  | some r => rfl

theorem getTier_record_page_access (s : tiered_manager) (a : Nat) (w : Bool)
    (n : Nat) (t : memory_tier) :
    getTier (record_page_access s a w n) t = getTier s t := by
  have h1 : getTier (record_page_access s a w n) t
      = getTier (get_or_create_page_stats s a n) t := by
    cases t <;> rfl
  rw [h1, getTier_get_or_create]

theorem get_or_create_of_present {s : tiered_manager} {a n : Nat} {r : page_stats}
    (h : lookupRec s.records (page_align a) = some r) :
    get_or_create_page_stats s a n = s := by
  unfold get_or_create_page_stats
  rw [h]

theorem get_or_create_records_of_absent {s : tiered_manager} {a : Nat} (n : Nat)
    (h : lookupRec s.records (page_align a) = none) :
    (get_or_create_page_stats s a n).records
      = s.records ++ [freshStats (page_align a) n] := by
  unfold get_or_create_page_stats
  rw [h]

theorem get_or_create_regions (s : tiered_manager) (a n : Nat) :
    (get_or_create_page_stats s a n).regions = s.regions := by
  unfold get_or_create_page_stats
  cases hl : lookupRec s.records (page_align a) <;> rfl

theorem get_or_create_total_faults (s : tiered_manager) (a n : Nat) :
    (get_or_create_page_stats s a n).total_faults = s.total_faults := by
  unfold get_or_create_page_stats
  cases hl : lookupRec s.records (page_align a) <;> rfl

theorem get_or_create_mapped (s : tiered_manager) (a n : Nat) :
    (get_or_create_page_stats s a n).mapped = s.mapped := by
  unfold get_or_create_page_stats
  cases hl : lookupRec s.records (page_align a) <;> rfl

theorem record_page_access_regions (s : tiered_manager) (a : Nat) (w : Bool) (n : Nat) :
    (record_page_access s a w n).regions = s.regions := by
  unfold record_page_access
  exact get_or_create_regions s a n

theorem record_page_access_total_faults (s : tiered_manager) (a : Nat) (w : Bool) (n : Nat) :
    (record_page_access s a w n).total_faults = s.total_faults := by
  unfold record_page_access
  exact get_or_create_total_faults s a n

theorem record_page_access_mapped (s : tiered_manager) (a : Nat) (w : Bool) (n : Nat) :
    (record_page_access s a w n).mapped = s.mapped := by
  unfold record_page_access
  exact get_or_create_mapped s a n

theorem setTierUsed_regions (s : tiered_manager) (t : memory_tier) (v : Nat) :
    (setTierUsed s t v).regions = s.regions := by
  cases t <;> rfl

theorem setTierUsed_total_faults (s : tiered_manager) (t : memory_tier) (v : Nat) :
    (setTierUsed s t v).total_faults = s.total_faults := by
  cases t <;> rfl

theorem lookupRec_goc_absent (s : tiered_manager) (a n : Nat)
    (h : lookupRec s.records (page_align a) = none) :
    lookupRec (get_or_create_page_stats s a n).records (page_align a)
      = some (freshStats (page_align a) n) := by
  rw [get_or_create_records_of_absent n h]
  exact lookupRec_append_fresh h _ rfl

theorem bump_region_of_nomatch {l : List managed_region} {a : Nat}
    (t : memory_tier)
    (h : ∀ r ∈ l, ¬ (r.active ∧ r.base_addr ≤ a ∧ a < r.base_addr + r.length)) :
    bump_region l a t = l := by
  induction l with
  | nil => rfl
  | cons x xs ih =>
      unfold bump_region
      rw [if_neg (h x (List.mem_cons_self x xs)),
        ih (fun r hr => h r (List.mem_cons_of_mem x hr))]

theorem bump_region_first_match (pre : List managed_region)
    (reg : managed_region) (post : List managed_region) (a : Nat)
    (t : memory_tier)
    (hpre : ∀ q ∈ pre, ¬ (q.active ∧ q.base_addr ≤ a ∧ a < q.base_addr + q.length))
    (hreg : reg.active ∧ reg.base_addr ≤ a ∧ a < reg.base_addr + reg.length) :
    bump_region (pre ++ reg :: post) a t
      = pre ++
        { reg with
          total_faults := reg.total_faults + 1
          pages_in_dram := if t = TIER_DRAM then reg.pages_in_dram + 1 else reg.pages_in_dram
          pages_in_nvm := if t = TIER_DRAM then reg.pages_in_nvm else reg.pages_in_nvm + 1 }
        :: post := by
  induction pre with
  | nil =>
      rw [List.nil_append, List.nil_append, bump_region, if_pos hreg]
  | cons x xs ih =>
      have hx := hpre x (List.mem_cons_self x xs)
      rw [List.cons_append, List.cons_append, bump_region, if_neg hx,
        ih (fun q hq => hpre q (List.mem_cons_of_mem x hq))]

theorem get_or_create_of_isSome (s : tiered_manager) (a n : Nat)
    (h : (lookupRec s.records (page_align a)).isSome = true) :
    get_or_create_page_stats s a n = s := by
  unfold get_or_create_page_stats
  cases hl : lookupRec s.records (page_align a) with
  | none => rw [hl] at h; simp at h
  | some r => rfl

theorem knownCount_eq (l : List page_stats) :
    knownCount l = tierCount TIER_DRAM l + tierCount TIER_NVM l := by
  induction l with
  | nil => rfl
  | cons x xs ih =>
      unfold knownCount tierCount at ih ⊢
      rw [List.countP_cons, List.countP_cons, List.countP_cons, ih]
      cases hx : x.current_tier <;> simp [hx] <;> omega

theorem tierCount_le_length (t : memory_tier) (l : List page_stats) :
    tierCount t l ≤ l.length :=
  List.countP_le_length _

set_option maxRecDepth 40000 in
/-- The stats-table content produced by a successful fault resolution at a
not-yet-tracked page: a fresh record is appended, its tier set, and an
initial read access recorded. -/
theorem resolve_records_eq (s : tiered_manager) (fault_addr : Nat)
    (tier : memory_tier) (now : Nat)
    (hnot : page_align fault_addr ∉ s.mapped)
    (habs : lookupRec s.records (page_align fault_addr) = none) :
    (resolve_page_fault s fault_addr tier now false).1.records
      = updateRec
          (updateRec (s.records ++ [freshStats (page_align fault_addr) now])
            (page_align fault_addr) (fun r => { r with current_tier := tier }))
          (page_align fault_addr)
          (fun r => { r with
            access_count := r.access_count + 1
            read_count := r.read_count + 1
            last_access_ns := now }) := by
  unfold resolve_page_fault
  rw [if_neg hnot, if_neg Bool.false_ne_true]
  simp only [record_page_access, page_align_idem, setTierUsed_records]
  simp [page_align_idem, setTierUsed_records, habs, get_or_create_records_of_absent,
    lookupRec_updateRec_self, lookupRec_append_fresh, lookupRec_goc_absent,
    get_or_create_of_isSome, freshStats]

theorem resolve_mapped_eq (s : tiered_manager) (fault_addr : Nat)
    (tier : memory_tier) (now : Nat)
    (hnot : page_align fault_addr ∉ s.mapped) :
    (resolve_page_fault s fault_addr tier now false).1.mapped
      = page_align fault_addr :: s.mapped := by
  unfold resolve_page_fault
  rw [if_neg hnot, if_neg Bool.false_ne_true]
  simp only []
  rw [record_page_access_mapped, get_or_create_mapped, setTierUsed_mapped]

theorem resolve_getTier_eq (s : tiered_manager) (fault_addr : Nat)
    (tier : memory_tier) (now : Nat)
    (hnot : page_align fault_addr ∉ s.mapped) :
    getTier (resolve_page_fault s fault_addr tier now false).1 tier
      = { getTier s tier with used := wadd (getTier s tier).used PAGE_SIZE } := by
  unfold resolve_page_fault
  rw [if_neg hnot, if_neg Bool.false_ne_true]
  rw [getTier_set_faults, getTier_set_regions, getTier_record_page_access,
    getTier_set_records, getTier_get_or_create, getTier_setTierUsed_same,
    getTier_set_mapped]

theorem resolve_getTier_other (s : tiered_manager) (fault_addr : Nat)
    {tier t : memory_tier} (now : Nat)
    (hnot : page_align fault_addr ∉ s.mapped) (hne : t ≠ tier) :
    getTier (resolve_page_fault s fault_addr tier now false).1 t
      = getTier s t := by
  unfold resolve_page_fault
  rw [if_neg hnot, if_neg Bool.false_ne_true]
  rw [getTier_set_faults, getTier_set_regions, getTier_record_page_access,
    getTier_set_records, getTier_get_or_create, getTier_setTierUsed_other _ _ hne,
    getTier_set_mapped]

/-- The state produced by a successful migration: the record's placement
fields are rewritten; `mapped` is untouched; the call returns 0. -/
theorem migrate_success_state (s : tiered_manager) (d : migration_decision)
    (now : Nat) {r0 : page_stats}
    (hl : get_page_stats s d.page_addr = some r0)
    (hok : ¬ wadd (getTier s d.to_tier).used PAGE_SIZE > (getTier s d.to_tier).capacity) :
    (execute_migration s d now).1.records
      = updateRec s.records (page_align d.page_addr)
          (fun r => { r with
            current_tier := d.to_tier
            last_migration_ns := now
            migration_count := r.migration_count + 1 }) ∧
    (execute_migration s d now).1.mapped = s.mapped ∧
    (execute_migration s d now).2 = 0 := by
  unfold execute_migration
  rw [hl, if_neg hok]
  refine ⟨?_, ?_, rfl⟩
  · simp only []
    rw [setTierUsed_records, setTierUsed_records]
  · simp only []
    rw [setTierUsed_mapped, setTierUsed_mapped]

theorem migrate_success_getTier (s : tiered_manager) (d : migration_decision)
    (now : Nat) {r0 : page_stats} (t : memory_tier)
    (hl : get_page_stats s d.page_addr = some r0)
    (hok : ¬ wadd (getTier s d.to_tier).used PAGE_SIZE > (getTier s d.to_tier).capacity) :
    getTier (execute_migration s d now).1 t
      = getTier
          (setTierUsed
            (setTierUsed s d.from_tier (wsub (getTier s d.from_tier).used PAGE_SIZE))
            d.to_tier
            (wadd
              (getTier (setTierUsed s d.from_tier (wsub (getTier s d.from_tier).used PAGE_SIZE))
                d.to_tier).used
              PAGE_SIZE))
          t := by
  unfold execute_migration
  rw [hl, if_neg hok]
  exact getTier_set_records_migrations _ _ _ t

theorem U64_val : U64 = 18446744073709551616 := by norm_num [U64]

theorem wadd_wsub_cancel {a b : Nat} (ha : a < U64) : wadd (wsub a b) b = a := by
  unfold wadd wsub
  rw [U64_val] at ha ⊢
  omega

/-- Preservation of the accounting invariant by one fault resolution (with
any tier choice and any copy outcome), provided the counters cannot yet
overflow. -/
theorem resolve_preserves_inv (s : tiered_manager) (fault_addr : Nat)
    (tier : memory_tier) (now : Nat) (cf : Bool) (hInv : ManagerInv s)
    (hbound : PAGE_SIZE * (s.records.length + 1) < U64) :
    ManagerInv (resolve_page_fault s fault_addr tier now cf).1 ∧
    (resolve_page_fault s fault_addr tier now cf).1.records.length
      ≤ s.records.length + 1 := by
  obtain ⟨hD, hN, hnd, hmap⟩ := hInv
  by_cases hmem : page_align fault_addr ∈ s.mapped
  · have heq : resolve_page_fault s fault_addr tier now cf = (s, 0) := by
      unfold resolve_page_fault
      rw [if_pos hmem]
    rw [heq]
    exact ⟨⟨hD, hN, hnd, hmap⟩, Nat.le_succ _⟩
  cases cf with
  | true =>
      have heq : resolve_page_fault s fault_addr tier now true = (s, -1) := by
        unfold resolve_page_fault
        rw [if_neg hmem, if_pos rfl]
      rw [heq]
      exact ⟨⟨hD, hN, hnd, hmap⟩, Nat.le_succ _⟩
  | false =>
      have habs : lookupRec s.records (page_align fault_addr) = none := by
        cases hl : lookupRec s.records (page_align fault_addr) with
        | none => rfl
        | some r =>
            obtain ⟨hmm, hkey⟩ := lookupRec_mem hl
            have hk : r.page_addr ∈ s.mapped :=
              hmap _ (List.mem_map_of_mem (fun q => q.page_addr) hmm)
            rw [hkey] at hk
            exact absurd hk hmem
      have hrec := resolve_records_eq s fault_addr tier now hmem habs
      have hmapped := resolve_mapped_eq s fault_addr tier now hmem
      have hpnot : page_align fault_addr ∉ s.records.map (fun r => r.page_addr) := by
        rw [List.mem_map]
        rintro ⟨r, hrm, hrk⟩
        exact (lookupRec_eq_none_iff.mp habs r hrm) hrk
      have hl1 : lookupRec (s.records ++ [freshStats (page_align fault_addr) now])
          (page_align fault_addr) = some (freshStats (page_align fault_addr) now) :=
        lookupRec_append_fresh habs _ rfl
      have hnd1 : keysNodup (s.records ++ [freshStats (page_align fault_addr) now]) := by
        unfold keysNodup at hnd ⊢
        rw [List.map_append]
        simp [List.nodup_append, hnd, hpnot, freshStats]
      have hl2 : lookupRec
          (updateRec (s.records ++ [freshStats (page_align fault_addr) now])
            (page_align fault_addr) (fun r => { r with current_tier := tier }))
          (page_align fault_addr)
          = some { freshStats (page_align fault_addr) now with current_tier := tier } := by
        rw [lookupRec_updateRec_self (fun r => { r with current_tier := tier })
          (fun r => rfl), hl1]
        rfl
      have hnd2 : keysNodup
          (updateRec (s.records ++ [freshStats (page_align fault_addr) now])
            (page_align fault_addr) (fun r => { r with current_tier := tier })) := by
        unfold keysNodup
        rw [updateRec_keys (fun r => { r with current_tier := tier }) (fun r => rfl)]
        exact hnd1
      have hkeys : (resolve_page_fault s fault_addr tier now false).1.records.map
          (fun r => r.page_addr)
          = s.records.map (fun r => r.page_addr) ++ [page_align fault_addr] := by
        rw [hrec,
          updateRec_keys (fun r => { r with
            access_count := r.access_count + 1
            read_count := r.read_count + 1
            last_access_ns := now }) (fun r => rfl),
          updateRec_keys (fun r => { r with current_tier := tier }) (fun r => rfl),
          List.map_append]
        rfl
      have hlen : (resolve_page_fault s fault_addr tier now false).1.records.length
          = s.records.length + 1 := by
        rw [hrec, updateRec_length, updateRec_length, List.length_append]
        rfl
      have hcount : ∀ t : memory_tier, TIER_UNKNOWN ≠ t →
          tierCount t (resolve_page_fault s fault_addr tier now false).1.records
          = tierCount t s.records + (if tier = t then 1 else 0) := by
        intro t htu
        have h2 := countP_updateRec (fun r => decide (r.current_tier = t))
          (fun r => { r with
            access_count := r.access_count + 1
            read_count := r.read_count + 1
            last_access_ns := now }) hnd2 hl2
        have h1 := countP_updateRec (fun r => decide (r.current_tier = t))
          (fun r => { r with current_tier := tier }) hnd1 hl1
        have hfu : (freshStats (page_align fault_addr) now).current_tier
            = TIER_UNKNOWN := rfl
        unfold tierCount
        rw [hrec]
        rw [List.countP_append] at h1
        simp only [decide_eq_true_eq, hfu, List.countP_cons, List.countP_nil]
          at h1 h2
        rw [if_neg htu] at h1
        by_cases ht : tier = t
        · simp only [if_pos ht] at h1 h2 ⊢
          omega
        · simp only [if_neg ht] at h1 h2 ⊢
          omega
      have hused : ∀ t : memory_tier, t ≠ TIER_UNKNOWN →
          (getTier (resolve_page_fault s fault_addr tier now false).1 t).used
            = PAGE_SIZE * tierCount t (resolve_page_fault s fault_addr tier now false).1.records := by
        intro t htu
        have hcnt := hcount t (Ne.symm htu)
        have hct_le : tierCount t s.records ≤ s.records.length := tierCount_le_length t _
        have hold : (getTier s t).used = PAGE_SIZE * tierCount t s.records := by
          cases t with
          | TIER_UNKNOWN => exact absurd rfl htu
          | TIER_DRAM => exact hD
          | TIER_NVM => exact hN
        by_cases htt : t = tier
        · subst htt
          rw [resolve_getTier_eq s fault_addr t now hmem]
          have hwadd : wadd (getTier s t).used PAGE_SIZE
              = (getTier s t).used + PAGE_SIZE := by
            apply wadd_of_lt
            rw [hold]
            calc PAGE_SIZE * tierCount t s.records + PAGE_SIZE
                = PAGE_SIZE * (tierCount t s.records + 1) := by ring
              _ ≤ PAGE_SIZE * (s.records.length + 1) :=
                  Nat.mul_le_mul_left _ (by omega)
              _ < U64 := hbound
          show wadd (getTier s t).used PAGE_SIZE = _
          rw [hwadd, hold, hcnt, if_pos rfl]
          ring
        · rw [resolve_getTier_other s fault_addr now hmem htt, hold, hcnt,
            if_neg (fun h => htt h.symm)]
          ring
      refine ⟨⟨?_, ?_, ?_, ?_⟩, by rw [hlen]⟩
      · exact hused TIER_DRAM (by decide)
      · exact hused TIER_NVM (by decide)
      · unfold keysNodup
        rw [hkeys]
        unfold keysNodup at hnd1
        rw [List.map_append] at hnd1
        simpa [freshStats] using hnd1
      · intro k hk
        rw [hkeys] at hk
        rw [hmapped]
        rcases List.mem_append.mp hk with hk | hk
        · exact List.mem_cons_of_mem _ (hmap k hk)
        · simp only [List.mem_singleton] at hk
          rw [hk]
          exact List.mem_cons_self _ _

/-- One tier's `used` after the paired decrement/increment of a migration,
expressed against the record counts before and after. -/
theorem migrate_used_component (s : tiered_manager) (ft tt T : memory_tier)
    (cT cT' : Nat)
    (hold : (getTier s T).used = PAGE_SIZE * cT)
    (hcnt : cT' + (if ft = T then 1 else 0) = cT + (if tt = T then 1 else 0))
    (hpos : ft = T → 1 ≤ cT)
    (hbound2 : PAGE_SIZE * (cT + 1) < U64) :
    (getTier
        (setTierUsed (setTierUsed s ft (wsub (getTier s ft).used PAGE_SIZE)) tt
          (wadd
            (getTier (setTierUsed s ft (wsub (getTier s ft).used PAGE_SIZE)) tt).used
            PAGE_SIZE))
        T).used
      = PAGE_SIZE * cT' := by
  have hlt : PAGE_SIZE * cT < U64 :=
    lt_of_le_of_lt (Nat.mul_le_mul_left _ (Nat.le_succ _)) hbound2
  by_cases hf : ft = T <;> by_cases ht2 : tt = T
  · rw [hf, ht2]
    rw [getTier_setTierUsed_same]
    simp only []
    rw [getTier_setTierUsed_same]
    simp only []
    rw [wadd_wsub_cancel (by rw [hold]; exact hlt), hold]
    simp only [if_pos hf, if_pos ht2] at hcnt
    have hc : cT' = cT := by omega
    rw [hc]
  · rw [hf]
    rw [getTier_setTierUsed_other _ _ (Ne.symm ht2), getTier_setTierUsed_same]
    simp only []
    have h1 : 1 ≤ cT := hpos hf
    rw [hold, wsub_of_le (by calc PAGE_SIZE = PAGE_SIZE * 1 := by ring
          _ ≤ PAGE_SIZE * cT := Nat.mul_le_mul_left _ h1) hlt]
    simp only [if_pos hf, if_neg ht2] at hcnt
    have hc : cT = cT' + 1 := by omega
    rw [hc, Nat.mul_add, Nat.mul_one, Nat.add_sub_cancel]
  · rw [ht2]
    rw [getTier_setTierUsed_same]
    simp only []
    rw [getTier_setTierUsed_other _ _ (Ne.symm hf), hold]
    have hwadd : wadd (PAGE_SIZE * cT) PAGE_SIZE = PAGE_SIZE * cT + PAGE_SIZE := by
      apply wadd_of_lt
      calc PAGE_SIZE * cT + PAGE_SIZE = PAGE_SIZE * (cT + 1) := by ring
        _ < U64 := hbound2
    rw [hwadd]
    simp only [if_neg hf, if_pos ht2] at hcnt
    have hc : cT' = cT + 1 := by omega
    rw [hc]
    ring
  · rw [getTier_setTierUsed_other _ _ (Ne.symm ht2),
      getTier_setTierUsed_other _ _ (Ne.symm hf), hold]
    simp only [if_neg hf, if_neg ht2] at hcnt
    have hc : cT' = cT := by omega
    rw [hc]

/-- Preservation of the accounting invariant by one migration whose decision
names the record's actual tier as source. -/
theorem migrate_preserves_inv (s : tiered_manager) (d : migration_decision)
    (now : Nat) (hInv : ManagerInv s)
    (hvalid : ∀ r, get_page_stats s d.page_addr = some r →
      d.from_tier = r.current_tier)
    (hbound : PAGE_SIZE * (s.records.length + 1) < U64) :
    ManagerInv (execute_migration s d now).1 ∧
    (execute_migration s d now).1.records.length = s.records.length := by
  obtain ⟨hD, hN, hnd, hmap⟩ := hInv
  cases hl : get_page_stats s d.page_addr with
  | none =>
      have heq : execute_migration s d now = (s, -1) := by
        unfold execute_migration
        rw [hl]
      rw [heq]
      exact ⟨⟨hD, hN, hnd, hmap⟩, rfl⟩
  | some r0 =>
      by_cases hok : wadd (getTier s d.to_tier).used PAGE_SIZE
          > (getTier s d.to_tier).capacity
      · have heq : execute_migration s d now = (s, -1) := by
          unfold execute_migration
          rw [hl, if_pos hok]
        rw [heq]
        exact ⟨⟨hD, hN, hnd, hmap⟩, rfl⟩
      · obtain ⟨hrec, hmapped, -⟩ := migrate_success_state s d now hl hok
        have hfrom := hvalid r0 hl
        have hl0 : lookupRec s.records (page_align d.page_addr) = some r0 := hl
        have hkeys : (execute_migration s d now).1.records.map (fun r => r.page_addr)
            = s.records.map (fun r => r.page_addr) := by
          rw [hrec, updateRec_keys (fun r => { r with
            current_tier := d.to_tier
            last_migration_ns := now
            migration_count := r.migration_count + 1 }) (fun r => rfl)]
        have hlen : (execute_migration s d now).1.records.length
            = s.records.length := by
          rw [hrec, updateRec_length]
        have hcount : ∀ t : memory_tier,
            tierCount t (execute_migration s d now).1.records
              + (if r0.current_tier = t then 1 else 0)
            = tierCount t s.records + (if d.to_tier = t then 1 else 0) := by
          intro t
          have h1 := countP_updateRec (fun r => decide (r.current_tier = t))
            (fun r => { r with
              current_tier := d.to_tier
              last_migration_ns := now
              migration_count := r.migration_count + 1 }) hnd hl0
          unfold tierCount
          rw [hrec]
          simp only [decide_eq_true_eq] at h1
          exact h1
        have hpos : ∀ t : memory_tier, r0.current_tier = t →
            1 ≤ tierCount t s.records := by
          intro t ht
          exact countP_pos_of_lookup _ hl0 (by simp [ht])
        have hbD : PAGE_SIZE * (tierCount TIER_DRAM s.records + 1) < U64 :=
          lt_of_le_of_lt
            (Nat.mul_le_mul_left _ (by
              have := tierCount_le_length TIER_DRAM s.records
              omega)) hbound
        have hbN : PAGE_SIZE * (tierCount TIER_NVM s.records + 1) < U64 :=
          lt_of_le_of_lt
            (Nat.mul_le_mul_left _ (by
              have := tierCount_le_length TIER_NVM s.records
              omega)) hbound
        refine ⟨⟨?_, ?_, ?_, ?_⟩, hlen⟩
        · show (getTier (execute_migration s d now).1 TIER_DRAM).used = _
          rw [migrate_success_getTier s d now TIER_DRAM hl hok, hfrom]
          exact migrate_used_component s r0.current_tier d.to_tier TIER_DRAM
            _ _ hD (hcount TIER_DRAM) (hpos TIER_DRAM) hbD
        · show (getTier (execute_migration s d now).1 TIER_NVM).used = _
          rw [migrate_success_getTier s d now TIER_NVM hl hok, hfrom]
          exact migrate_used_component s r0.current_tier d.to_tier TIER_NVM
            _ _ hN (hcount TIER_NVM) (hpos TIER_NVM) hbN
        · unfold keysNodup
          rw [hkeys]
          exact hnd
        · intro k hk
          rw [hkeys] at hk
          rw [hmapped]
          exact hmap k hk

/-- The scan counter never exceeds `max_migrations_per_cycle`: it only
increments under the loop guard `m < max_migrations_per_cycle`. -/
theorem policy_scan_go_le (pol : page_stats → Option migration_decision)
    (now : Nat) :
    ∀ (keys : List Nat) (s : tiered_manager) (m : Nat),
      m ≤ max_migrations_per_cycle →
      (policy_scan_go pol now keys s m).2 ≤ max_migrations_per_cycle := by
  intro keys
  induction keys with
  | nil =>
      intro s m hm
      exact hm
  | cons a rest ih =>
      intro s m hm
      unfold policy_scan_go
      by_cases hlt : m < max_migrations_per_cycle
      · rw [if_pos hlt]
        cases hl : lookupRec s.records a with
        | none => exact ih s m hm
        | some rec =>
            cases hp : pol rec with
            | none =>
                simp only [hp]
                exact ih s m hm
            | some d =>
                simp only [hp]
                by_cases hc : d.confidence ≥ confidence_min
                · rw [if_pos hc]
                  exact ih _ _ (by split <;> omega)
                · rw [if_neg hc]
                  exact ih s m hm
      · rw [if_neg hlt]
        exact hm

/-- The accounting invariant is preserved by any well-formed sequence of
dataplane operations, provided the run is short enough that the 64-bit
`used` counters cannot overflow. -/
theorem runOps_preserves (ops : List ManagerOp) :
    ∀ s : tiered_manager, ManagerInv s → goodOps s ops →
      PAGE_SIZE * (s.records.length + ops.length + 1) < U64 →
      ManagerInv (runOps s ops) ∧
      (runOps s ops).records.length ≤ s.records.length + ops.length := by
  induction ops with
  | nil =>
      intro s hInv _ _
      exact ⟨hInv, Nat.le_add_right _ _⟩
  | cons op rest ih =>
      intro s hInv hg hbound
      obtain ⟨hv, hrest⟩ := hg
      simp only [List.length_cons] at hbound
      cases op with
      | fault a now cf =>
          obtain ⟨hInv1, hlen1⟩ := resolve_preserves_inv s a
            (decide_initial_placement s) now cf hInv
            (lt_of_le_of_lt (Nat.mul_le_mul_left _ (by omega)) hbound)
          obtain ⟨hI, hL⟩ := ih
            (resolve_page_fault s a (decide_initial_placement s) now cf).1
            hInv1 hrest
            (lt_of_le_of_lt (Nat.mul_le_mul_left _ (by omega)) hbound)
          refine ⟨hI, le_trans hL (by simp only [List.length_cons]; omega)⟩
      | migrate d now =>
          obtain ⟨hInv1, hlen1⟩ := migrate_preserves_inv s d now hInv hv
            (lt_of_le_of_lt (Nat.mul_le_mul_left _ (by omega)) hbound)
          obtain ⟨hI, hL⟩ := ih (execute_migration s d now).1 hInv1 hrest
            (lt_of_le_of_lt (Nat.mul_le_mul_left _ (by omega)) hbound)
          refine ⟨hI, le_trans hL (by simp only [List.length_cons]; omega)⟩

/-- A freshly initialised manager satisfies the accounting invariant. -/
theorem initManager_inv : ManagerInv initManager := by
  refine ⟨rfl, rfl, ?_, ?_⟩
  · simp [keysNodup, initManager]
  · intro k hk
    simp [initManager] at hk

/-! ### Claim theorems -/

/-- C4: `decide_initial_placement` chooses Fast (DRAM) when
`dram.used + PAGE_SIZE <= dram.capacity`; otherwise Slow (NVM) when
`nvm.used + PAGE_SIZE <= nvm.capacity`; otherwise Fast.  In particular, with
Fast usage exactly at capacity (and Slow having room) the faulting page is
placed in Slow. -/
theorem C4_initial_placement_order (s : tiered_manager)
    (hD : s.tierDram.used + PAGE_SIZE < U64)
    (hN : s.tierNvm.used + PAGE_SIZE < U64) :
    (s.tierDram.used + PAGE_SIZE ≤ s.tierDram.capacity →
      decide_initial_placement s = TIER_DRAM) ∧
    (¬ s.tierDram.used + PAGE_SIZE ≤ s.tierDram.capacity →
      s.tierNvm.used + PAGE_SIZE ≤ s.tierNvm.capacity →
      decide_initial_placement s = TIER_NVM) ∧
    (¬ s.tierDram.used + PAGE_SIZE ≤ s.tierDram.capacity →
      ¬ s.tierNvm.used + PAGE_SIZE ≤ s.tierNvm.capacity →
      decide_initial_placement s = TIER_DRAM) ∧
    (s.tierDram.used = s.tierDram.capacity →
      s.tierNvm.used + PAGE_SIZE ≤ s.tierNvm.capacity →
      decide_initial_placement s = TIER_NVM) := by
  unfold decide_initial_placement
  rw [wadd_of_lt hD, wadd_of_lt hN]
  have hp : 0 < PAGE_SIZE := by decide
  refine ⟨?_, ?_, ?_, ?_⟩
  · intro h1
    rw [if_pos h1]
  · intro h1 h2
    rw [if_neg h1, if_pos h2]
  · intro h1 h2
    rw [if_neg h1, if_neg h2]
  · intro h1 h2
    rw [if_neg (by omega), if_pos h2]

/-- C4 witness: on a freshly initialised manager (DRAM empty, 4 GiB capacity)
placement is DRAM. -/
theorem C4_initial_placement_order_w :
    decide_initial_placement initManager = TIER_DRAM :=
  (C4_initial_placement_order initManager (by decide) (by decide)).1 (by decide)

/-- C5: the default heuristic returns no decision for a page migrated within
`min_residence_ns` (100 ms) of now; otherwise it promotes a Slow page with
`heat_score > hot_threshold (0.7)` to Fast with confidence `heat_score`,
demotes a Fast page with `heat_score < cold_threshold (0.3)` to Slow with
confidence `1 - heat_score`, and returns no decision in all other cases. -/
theorem C5_default_heuristic (stats : page_stats) (now : Nat)
    (hmono : stats.last_migration_ns ≤ now) (hnow : now < U64) :
    (stats.last_migration_ns > 0 →
      now - stats.last_migration_ns < min_residence_ns →
      default_heuristic_policy stats now = none) ∧
    ((stats.last_migration_ns = 0 ∨
        min_residence_ns ≤ now - stats.last_migration_ns) →
      stats.current_tier = TIER_NVM → stats.heat_score > hot_threshold →
      default_heuristic_policy stats now =
        some { page_addr := stats.page_addr, from_tier := TIER_NVM
               to_tier := TIER_DRAM, confidence := stats.heat_score
               reason := "Hot page promotion" }) ∧
    ((stats.last_migration_ns = 0 ∨
        min_residence_ns ≤ now - stats.last_migration_ns) →
      stats.current_tier = TIER_DRAM → stats.heat_score < cold_threshold →
      default_heuristic_policy stats now =
        some { page_addr := stats.page_addr, from_tier := TIER_DRAM
               to_tier := TIER_NVM, confidence := 1 - stats.heat_score
               reason := "Cold page demotion" }) ∧
    ((stats.last_migration_ns = 0 ∨
        min_residence_ns ≤ now - stats.last_migration_ns) →
      ¬ (stats.current_tier = TIER_NVM ∧ stats.heat_score > hot_threshold) →
      ¬ (stats.current_tier = TIER_DRAM ∧ stats.heat_score < cold_threshold) →
      default_heuristic_policy stats now = none) ∧
    min_residence_ns = 100000000 ∧ hot_threshold = 7 / 10 ∧
    cold_threshold = 3 / 10 := by
  have hws : wsub now stats.last_migration_ns = now - stats.last_migration_ns :=
    wsub_of_le hmono hnow
  unfold default_heuristic_policy
  rw [hws]
  refine ⟨?_, ?_, ?_, ?_, rfl, ?_, ?_⟩
  · intro h1 h2
    rw [if_pos ⟨h1, h2⟩]
  · intro hnr htier hheat
    rw [if_neg (by omega), if_pos ⟨htier, hheat⟩, htier]
  · intro hnr htier hheat
    have hnotnvm : ¬ (stats.current_tier = TIER_NVM ∧ stats.heat_score > hot_threshold) := by
      rw [htier]; rintro ⟨h, -⟩; exact absurd h (by decide)
    rw [if_neg (by omega), if_neg hnotnvm, if_pos ⟨htier, hheat⟩, htier]
  · intro hnr h1 h2
    rw [if_neg (by omega), if_neg h1, if_neg h2]
  · norm_num [hot_threshold, Rat.mk'_eq_divInt, Rat.divInt_eq_div]
  · norm_num [cold_threshold, Rat.mk'_eq_divInt, Rat.divInt_eq_div]

/-- C5 witness: a hot NVM page (heat 0.9, never migrated) yields a promotion
to DRAM with confidence equal to its heat score. -/
theorem C5_default_heuristic_w :
    default_heuristic_policy (hotNvmStats 0) 1000000000 =
      some { page_addr := (hotNvmStats 0).page_addr, from_tier := TIER_NVM
             to_tier := TIER_DRAM, confidence := (hotNvmStats 0).heat_score
             reason := "Hot page promotion" } :=
  (C5_default_heuristic (hotNvmStats 0) 1000000000 (by decide) (by decide)).2.1
    (Or.inl (by decide)) (by decide) (by decide)

/-- C6: if the destination tier is full (`dest.used + PAGE_SIZE >
dest.capacity`), `execute_migration` returns an error and the entire manager
state — the page record, both tiers' `used`, `total_migrations` — is
unchanged. -/
theorem C6_migration_atomic_on_full (s : tiered_manager)
    (d : migration_decision) (now : Nat)
    (hfull : (getTier s d.to_tier).capacity < (getTier s d.to_tier).used + PAGE_SIZE)
    (hnw : (getTier s d.to_tier).used + PAGE_SIZE < U64) :
    execute_migration s d now = (s, -1) := by
  unfold execute_migration
  cases hl : get_page_stats s d.page_addr with
  | none => rfl
  | some r =>
      have hc : wadd (getTier s d.to_tier).used PAGE_SIZE > (getTier s d.to_tier).capacity := by
        rw [wadd_of_lt hnw]; omega
      rw [if_pos hc]

/-- C6 witness: with DRAM exactly full, a promotion into DRAM fails and
leaves the state untouched. -/
theorem C6_migration_atomic_on_full_w :
    execute_migration dramFullState promoteDecision 5 = (dramFullState, -1) :=
  C6_migration_atomic_on_full dramFullState promoteDecision 5 (by decide) (by decide)

set_option maxRecDepth 40000 in
/-- C7 (amended): an already-mapped report from the copy primitive is
treated as success but performs no accounting: `resolve_page_fault` returns
0 with the state unchanged.  Only when the copy itself succeeds (page not
yet mapped) does the full accounting run: the chosen tier's `used` grows by
`PAGE_SIZE`, the page record is created with an initial read access or
updated (tier overwritten, read access recorded), the first active region
containing the page has its fault and tier counters incremented, and the
global `total_faults` is incremented. -/
theorem C7_already_mapped_no_accounting (s : tiered_manager) (fault_addr : Nat)
    (tier : memory_tier) (now : Nat) (cf : Bool) :
    (page_align fault_addr ∈ s.mapped →
      resolve_page_fault s fault_addr tier now cf = (s, 0)) ∧
    (page_align fault_addr ∉ s.mapped →
      (resolve_page_fault s fault_addr tier now false).2 = 0 ∧
      ((getTier s tier).used + PAGE_SIZE < U64 →
        (getTier (resolve_page_fault s fault_addr tier now false).1 tier).used
          = (getTier s tier).used + PAGE_SIZE) ∧
      (resolve_page_fault s fault_addr tier now false).1.total_faults
        = s.total_faults + 1 ∧
      (lookupRec s.records (page_align fault_addr) = none →
        lookupRec (resolve_page_fault s fault_addr tier now false).1.records
            (page_align fault_addr)
          = some { page_addr := page_align fault_addr, access_count := 1
                   read_count := 1, write_count := 0, first_access_ns := now
                   last_access_ns := now, allocation_ns := now, heat_score := 0
                   access_rate := 0, current_tier := tier
                   last_migration_ns := 0, migration_count := 0 }) ∧
      (∀ r, lookupRec s.records (page_align fault_addr) = some r →
        lookupRec (resolve_page_fault s fault_addr tier now false).1.records
            (page_align fault_addr)
          = some { r with
                   current_tier := tier
                   access_count := r.access_count + 1
                   read_count := r.read_count + 1
                   last_access_ns := now }) ∧
      (resolve_page_fault s fault_addr tier now false).1.regions
        = bump_region s.regions (page_align fault_addr) tier ∧
      (∀ pre reg post, s.regions = pre ++ reg :: post →
        (∀ q ∈ pre, ¬ (q.active ∧ q.base_addr ≤ page_align fault_addr ∧
          page_align fault_addr < q.base_addr + q.length)) →
        reg.active → reg.base_addr ≤ page_align fault_addr →
        page_align fault_addr < reg.base_addr + reg.length →
        (resolve_page_fault s fault_addr tier now false).1.regions
          = pre ++
            { reg with
              total_faults := reg.total_faults + 1
              pages_in_dram := if tier = TIER_DRAM then reg.pages_in_dram + 1 else reg.pages_in_dram
              pages_in_nvm := if tier = TIER_DRAM then reg.pages_in_nvm else reg.pages_in_nvm + 1 }
            :: post)) := by
  constructor
  · intro hin
    unfold resolve_page_fault
    rw [if_pos hin]
  · intro hnot
    have hregions : (resolve_page_fault s fault_addr tier now false).1.regions
        = bump_region s.regions (page_align fault_addr) tier := by
      unfold resolve_page_fault
      rw [if_neg hnot, if_neg Bool.false_ne_true]
      simp only []
      rw [record_page_access_regions, get_or_create_regions, setTierUsed_regions]
    refine ⟨?_, ?_, ?_, ?_, ?_, hregions, ?_⟩
    · unfold resolve_page_fault
      rw [if_neg hnot, if_neg Bool.false_ne_true]
    · intro hnw
      unfold resolve_page_fault
      rw [if_neg hnot, if_neg Bool.false_ne_true]
      rw [getTier_set_faults, getTier_set_regions, getTier_record_page_access,
        getTier_set_records, getTier_get_or_create, getTier_setTierUsed_same,
        getTier_set_mapped]
      exact wadd_of_lt hnw
    · unfold resolve_page_fault
      rw [if_neg hnot, if_neg Bool.false_ne_true]
      simp only []
      rw [record_page_access_total_faults, get_or_create_total_faults,
        setTierUsed_total_faults]
    · intro habs
      unfold resolve_page_fault
      rw [if_neg hnot, if_neg Bool.false_ne_true]
      simp only [record_page_access, page_align_idem, setTierUsed_records]
      simp [page_align_idem, setTierUsed_records, habs,
        get_or_create_records_of_absent, lookupRec_updateRec_self,
        lookupRec_append_fresh, lookupRec_goc_absent, get_or_create_of_present,
        freshStats]
    · intro r hsome
      unfold resolve_page_fault
      rw [if_neg hnot, if_neg Bool.false_ne_true]
      simp only [record_page_access, page_align_idem, setTierUsed_records]
      simp [page_align_idem, setTierUsed_records, hsome, lookupRec_updateRec_self,
        get_or_create_of_present]
    · intro pre reg post hsplit hpre hact hlo hhi
      rw [hregions, hsplit]
      exact bump_region_first_match pre reg post _ tier hpre ⟨hact, hlo, hhi⟩

/-- C7 witness: the first fault at page 0 on a fresh manager succeeds and
performs the full accounting. -/
theorem C7_already_mapped_no_accounting_w :
    (resolve_page_fault initManager 0 TIER_DRAM 100 false).2 = 0 ∧
    (getTier (resolve_page_fault initManager 0 TIER_DRAM 100 false).1 TIER_DRAM).used
      = (getTier initManager TIER_DRAM).used + PAGE_SIZE ∧
    (resolve_page_fault initManager 0 TIER_DRAM 100 false).1.total_faults
      = initManager.total_faults + 1 ∧
    lookupRec (resolve_page_fault initManager 0 TIER_DRAM 100 false).1.records
        (page_align 0)
      = some { page_addr := page_align 0, access_count := 1
               read_count := 1, write_count := 0, first_access_ns := 100
               last_access_ns := 100, allocation_ns := 100, heat_score := 0
               access_rate := 0, current_tier := TIER_DRAM
               last_migration_ns := 0, migration_count := 0 } := by
  have h := (C7_already_mapped_no_accounting initManager 0 TIER_DRAM 100 false).2
    (by decide)
  exact ⟨h.1, h.2.1 (by decide), h.2.2.1, h.2.2.2.1 (by decide)⟩

/-- C7 counterexample: after page 0 has been resolved once, a second
resolution at page 0 takes the already-mapped path: it reports success (0)
but performs none of the accounting — `total_faults` stays 1 and DRAM `used`
stays at one page, although the claim requires the success accounting to
run. -/
theorem C7_counterexample :
    resolve_page_fault oneFaultState 0 TIER_DRAM 200 false = (oneFaultState, 0) ∧
    oneFaultState.total_faults = 1 ∧
    oneFaultState.tierDram.used = PAGE_SIZE ∧
    (0 : Nat) ∈ oneFaultState.mapped := by
  refine ⟨rfl, by decide, by decide, by decide⟩

/-- C8: the PEBS merge computes estimated counts as samples times the sample
period, overwrites `read_count`/`write_count` only when the estimate exceeds
the current value, recomputes `access_count` as the resulting sum, and
advances `last_access_ns` only when the sampler timestamp is newer.  All
other fields are untouched. -/
theorem C8_pebs_merge_semantics (rec : pebs_page_record) (stats : page_stats)
    (hr : rec.read_samples * PEBS_SAMPLE_PERIOD < U64)
    (hw : rec.write_samples * PEBS_SAMPLE_PERIOD < U64)
    (hsum :
      (if rec.read_samples * PEBS_SAMPLE_PERIOD > stats.read_count then
        rec.read_samples * PEBS_SAMPLE_PERIOD else stats.read_count) +
      (if rec.write_samples * PEBS_SAMPLE_PERIOD > stats.write_count then
        rec.write_samples * PEBS_SAMPLE_PERIOD else stats.write_count) < U64) :
    pebs_merge_record rec stats =
      { stats with
        read_count :=
          if rec.read_samples * PEBS_SAMPLE_PERIOD > stats.read_count then
            rec.read_samples * PEBS_SAMPLE_PERIOD else stats.read_count
        write_count :=
          if rec.write_samples * PEBS_SAMPLE_PERIOD > stats.write_count then
            rec.write_samples * PEBS_SAMPLE_PERIOD else stats.write_count
        access_count :=
          (if rec.read_samples * PEBS_SAMPLE_PERIOD > stats.read_count then
            rec.read_samples * PEBS_SAMPLE_PERIOD else stats.read_count) +
          (if rec.write_samples * PEBS_SAMPLE_PERIOD > stats.write_count then
            rec.write_samples * PEBS_SAMPLE_PERIOD else stats.write_count)
        last_access_ns :=
          if rec.last_sample_ns > stats.last_access_ns then
            rec.last_sample_ns else stats.last_access_ns } := by
  unfold pebs_merge_record
  simp only [wmul_of_lt hr, wmul_of_lt hw]
  unfold U64 at hr hw hsum
  split_ifs at hsum ⊢ with h1 h2 h3 <;>
    simp_all [wadd, U64, page_stats.mk.injEq]

/-- C8 witness: 3 read and 2 write samples merged into a record with small
fault-path counts overwrite both counters with the estimates. -/
theorem C8_pebs_merge_semantics_w :
    pebs_merge_record samplePebsRecord coldDramStats =
      { coldDramStats with
        read_count :=
          if samplePebsRecord.read_samples * PEBS_SAMPLE_PERIOD > coldDramStats.read_count then
            samplePebsRecord.read_samples * PEBS_SAMPLE_PERIOD else coldDramStats.read_count
        write_count :=
          if samplePebsRecord.write_samples * PEBS_SAMPLE_PERIOD > coldDramStats.write_count then
            samplePebsRecord.write_samples * PEBS_SAMPLE_PERIOD else coldDramStats.write_count
        access_count :=
          (if samplePebsRecord.read_samples * PEBS_SAMPLE_PERIOD > coldDramStats.read_count then
            samplePebsRecord.read_samples * PEBS_SAMPLE_PERIOD else coldDramStats.read_count) +
          (if samplePebsRecord.write_samples * PEBS_SAMPLE_PERIOD > coldDramStats.write_count then
            samplePebsRecord.write_samples * PEBS_SAMPLE_PERIOD else coldDramStats.write_count)
        last_access_ns :=
          if samplePebsRecord.last_sample_ns > coldDramStats.last_access_ns then
            samplePebsRecord.last_sample_ns else coldDramStats.last_access_ns } :=
  C8_pebs_merge_semantics samplePebsRecord coldDramStats (by decide) (by decide) (by decide)

/-- C9: in any single policy cycle at most `max_migrations_per_cycle` (10)
migrations execute; and in the concrete 50-hot-page scenario — 50 tracked
NVM pages, each yielding a promotion decision with confidence 0.9 ≥ 0.5,
with DRAM capacity available for all of them — exactly 10 migrations execute
and the remaining 40 qualifying pages are left unmigrated. -/
theorem C9_per_cycle_rate_limit :
    (∀ (s : tiered_manager) (pol : page_stats → Option migration_decision)
      (now : Nat), (policy_cycle_scan s pol now).2 ≤ max_migrations_per_cycle) ∧
    max_migrations_per_cycle = 10 ∧
    fiftyHotState.records.length = 50 ∧
    (∀ r ∈ fiftyHotState.records,
      Option.any (fun d => confidence_min ≤ d.confidence)
        (default_heuristic_policy r 1000000000) = true) ∧
    fiftyHotState.tierDram.used + 50 * PAGE_SIZE ≤ fiftyHotState.tierDram.capacity ∧
    (policy_cycle_scan fiftyHotState
      (fun st => default_heuristic_policy st 1000000000) 1000000000).2 = 10 ∧
    ((policy_cycle_scan fiftyHotState
        (fun st => default_heuristic_policy st 1000000000) 1000000000).1.records.map
      (fun r => (r.current_tier, r.migration_count)))
      = List.replicate 10 (TIER_DRAM, 1) ++ List.replicate 40 (TIER_NVM, 0) := by
  refine ⟨?_, rfl, by decide, by decide, by decide, by decide, by decide⟩
  intro s pol now
  exact policy_scan_go_le pol now _ s 0 (by decide)

/-- C10: `execute_migration` subtracts `PAGE_SIZE` from the source tier's
unsigned `used` without checking `used >= PAGE_SIZE` (or that `from_tier`
matches the record at all): whenever the migration proceeds with the source
tier holding `used < PAGE_SIZE`, the subtraction wraps modulo 2^64, leaving
that tier's `used` at `used + 2^64 - PAGE_SIZE`. -/
theorem C10_unchecked_source_decrement (s : tiered_manager)
    (d : migration_decision) (now : Nat)
    (hrec : ∃ r, get_page_stats s d.page_addr = some r)
    (hcap : (getTier s d.to_tier).used + PAGE_SIZE ≤ (getTier s d.to_tier).capacity)
    (hnw : (getTier s d.to_tier).used + PAGE_SIZE < U64)
    (hne : d.from_tier ≠ d.to_tier)
    (hlow : (getTier s d.from_tier).used < PAGE_SIZE) :
    (execute_migration s d now).2 = 0 ∧
    (getTier (execute_migration s d now).1 d.from_tier).used
      = (getTier s d.from_tier).used + U64 - PAGE_SIZE ∧
    U64 - PAGE_SIZE ≤ (getTier (execute_migration s d now).1 d.from_tier).used := by
  obtain ⟨r, hl⟩ := hrec
  have hok : ¬ wadd (getTier s d.to_tier).used PAGE_SIZE > (getTier s d.to_tier).capacity := by
    rw [wadd_of_lt hnw]; omega
  unfold execute_migration
  rw [hl, if_neg hok]
  refine ⟨rfl, ?_, ?_⟩
  · rw [getTier_set_records_migrations, getTier_setTierUsed_other _ _ hne,
      getTier_setTierUsed_same, wsub_of_lt hlow (by decide)]
  · rw [getTier_set_records_migrations, getTier_setTierUsed_other _ _ hne,
      getTier_setTierUsed_same, wsub_of_lt hlow (by decide)]
    simp only []
    omega

/-- C2 (amended): the only filter the policy loop applies to a returned
decision is `confidence >= confidence_min` (0.5).  When the policy returns
no decision, or a decision whose confidence is below that bound, the loop
executes no migration and the state is unchanged for that record.
(Decisions with a mismatched `from_tier`, or confidence above 1, are not
validated and do execute — see the counterexample.) -/
theorem C2_low_confidence_ignored (s : tiered_manager)
    (pol : page_stats → Option migration_decision) (now a : Nat)
    (h : ∀ r d, lookupRec s.records a = some r → pol r = some d →
      d.confidence < confidence_min) :
    policy_scan_go pol now [a] s 0 = (s, 0) := by
  unfold policy_scan_go
  rw [if_pos (by decide : (0 : Nat) < max_migrations_per_cycle)]
  cases hl : lookupRec s.records a with
  | none => rfl
  | some r =>
      cases hp : pol r with
      | none =>
          simp only [hp]
          rfl
      | some d =>
          simp only [hp]
          rw [if_neg (not_le.mpr (h r d hl hp))]
          rfl

/-- C2 witness: a policy that returns no decision leaves the state untouched. -/
theorem C2_low_confidence_ignored_w :
    policy_scan_go (fun _ => none) 7 [0] oneNvmState 0 = (oneNvmState, 0) :=
  C2_low_confidence_ignored oneNvmState (fun _ => none) 7 0
    (fun _ _ _ hp => Option.noConfusion hp)

/-- C2 counterexample: the record at page 0 sits on NVM, yet a policy
decision with `from_tier = TIER_DRAM` (mismatching the record's tier) and
confidence 2 (outside [0,1]) is executed: the cycle reports one migration,
`total_migrations` becomes 1, and the record's placement state changes. -/
theorem C2_counterexample :
    (hotNvmStats 0).current_tier = TIER_NVM ∧
    mismatchedPolicy (hotNvmStats 0) =
      some { page_addr := 0, from_tier := TIER_DRAM, to_tier := TIER_DRAM
             confidence := q_2, reason := "invalid" } ∧
    q_2 > 1 ∧
    (policy_cycle_scan oneNvmState mismatchedPolicy 7).2 = 1 ∧
    (policy_cycle_scan oneNvmState mismatchedPolicy 7).1.total_migrations = 1 ∧
    ((policy_cycle_scan oneNvmState mismatchedPolicy 7).1.records.map
      (fun r => (r.current_tier, r.migration_count, r.last_migration_ns)))
      = [(TIER_DRAM, 1, 7)] :=
  ⟨by decide, by decide,
    by norm_num [q_2, Rat.mk'_eq_divInt, Rat.divInt_eq_div],
    by decide, by decide, by decide⟩

/-- C3 (amended): `register_managed_region` fails synchronously — returning
-1 with no slot activated and the state unchanged — when every region slot
is already occupied, or when arming the fault source fails.  (It performs no
overlap check: see the counterexample, where two overlapping registrations
both succeed.) -/
theorem C3_register_failure (s : tiered_manager) (addr length : Nat)
    (ioctl_ok : Bool)
    (h : (∀ r ∈ s.regions, r.active = true) ∨ ioctl_ok = false) :
    register_managed_region s addr length ioctl_ok = (s, -1) := by
  unfold register_managed_region
  by_cases hfull : ∀ r ∈ s.regions, r.active = true
  · have hnone : s.regions.findIdx? (fun r => !r.active) = none := by
      rw [List.findIdx?_eq_none_iff]
      intro r hr
      rw [hfull r hr]
      rfl
    rw [hnone]
  · have hio : ioctl_ok = false := h.resolve_left hfull
    cases hf : s.regions.findIdx? (fun r => !r.active) with
    | none => rfl
    | some slot => simp [hio]

/-- C3 witness: with every one of the 64 slots active, registration fails and
the state is unchanged. -/
theorem C3_register_failure_w :
    register_managed_region allActiveState 0 4096 true = (allActiveState, -1) :=
  C3_register_failure allActiveState 0 4096 true (Or.inl (by decide))

/-- C3 counterexample: registering [0, 8192) and then the overlapping
[4096, 12288) both succeed (return 0), leaving two active region slots whose
half-open ranges overlap — `register_managed_region` does not detect
overlap, refuting both the synchronous-error claim and the
no-two-active-slots-overlap invariant. -/
theorem C3_counterexample :
    (register_managed_region initManager 0 8192 true).2 = 0 ∧
    (register_managed_region
      (register_managed_region initManager 0 8192 true).1 4096 8192 true).2 = 0 ∧
    ((register_managed_region
        (register_managed_region initManager 0 8192 true).1 4096 8192 true).1.regions.take 2
      = [{ base_addr := 0, length := 8192, active := true
           total_faults := 0, pages_in_dram := 0, pages_in_nvm := 0 },
         { base_addr := 4096, length := 8192, active := true
           total_faults := 0, pages_in_dram := 0, pages_in_nvm := 0 }]) ∧
    (4096 : Nat) < 0 + 8192 := by
  refine ⟨by decide, by decide, by decide, by decide⟩

/-- C10 witness: with the source (NVM) tier's `used` at 0, the migration
proceeds and leaves NVM `used` at 2^64 - 4096. -/
theorem C10_unchecked_source_decrement_w :
    (execute_migration oneNvmZeroUsedState promoteDecision 9).2 = 0 ∧
    (getTier (execute_migration oneNvmZeroUsedState promoteDecision 9).1
        promoteDecision.from_tier).used
      = (getTier oneNvmZeroUsedState promoteDecision.from_tier).used + U64 - PAGE_SIZE ∧
    U64 - PAGE_SIZE ≤
      (getTier (execute_migration oneNvmZeroUsedState promoteDecision 9).1
        promoteDecision.from_tier).used :=
  C10_unchecked_source_decrement oneNvmZeroUsedState promoteDecision 9
    ⟨hotNvmStats 0, by decide⟩ (by decide) (by decide) (by decide) (by decide)

/-- C1 (amended): starting from a freshly initialised manager, after any
sequence of fault resolutions and migrations in which every executed
migration decision names the record's actual current tier as its
`from_tier` (as the built-in heuristic always does), and which is short
enough that the 64-bit `used` counters cannot overflow,
`Fast.used + Slow.used` equals `PAGE_SIZE` times the number of page
records whose `current_tier` is not Unknown.  The side conditions are
necessary: `execute_migration` never checks `from_tier` against the
record, so a mismatched decision breaks the equation (see the
counterexample). -/
theorem C1_tier_usage_invariant (ops : List ManagerOp)
    (hg : goodOps initManager ops)
    (hbound : PAGE_SIZE * (ops.length + 1) < U64) :
    (runOps initManager ops).tierDram.used
        + (runOps initManager ops).tierNvm.used
      = PAGE_SIZE * knownCount (runOps initManager ops).records := by
  obtain ⟨⟨hD, hN, -, -⟩, -⟩ :=
    runOps_preserves ops initManager initManager_inv hg
      (by simpa [initManager] using hbound)
  rw [hD, hN, knownCount_eq, Nat.mul_add]

/-- C1 witness: a fault at page 0 followed by a well-formed demotion of that
page satisfies the invariant. -/
theorem C1_tier_usage_invariant_w :
    (runOps initManager c1GoodOps).tierDram.used
        + (runOps initManager c1GoodOps).tierNvm.used
      = PAGE_SIZE * knownCount (runOps initManager c1GoodOps).records :=
  C1_tier_usage_invariant c1GoodOps
    (by
      refine ⟨trivial, ?_, trivial⟩
      show ∀ r, get_page_stats
            (applyOp initManager (ManagerOp.fault 0 100 false)) 0 = some r →
          TIER_DRAM = r.current_tier
      intro r hr
      have hm : (get_page_stats
            (applyOp initManager (ManagerOp.fault 0 100 false)) 0).map
          (fun q => q.current_tier) = some TIER_DRAM := by decide
      rw [hr] at hm
      simp only [Option.map_some'] at hm
      exact (Option.some.inj hm).symm)
    (by decide)

/-- C1 counterexample: a fault at page 0 (placed in DRAM) followed by a
migration whose decision claims `from_tier = NVM` — a decision a custom
policy can emit, and which `execute_migration` executes without validating —
leaves `Fast.used + Slow.used` different from `PAGE_SIZE` times the number
of known-tier records (DRAM `used` is 8192 and NVM `used` wraps to
2^64 - 4096, while exactly one record is tracked), refuting the claim as
stated for arbitrary sequences of `resolve_page_fault` and
`execute_migration`. -/
theorem C1_counterexample :
    (runOps initManager c1BadOps).tierDram.used
        + (runOps initManager c1BadOps).tierNvm.used
      ≠ PAGE_SIZE * knownCount (runOps initManager c1BadOps).records := by
  decide

end LDOS
